import Mathlib

/-!
# TyreTerra — verification of the conversational form engine and search/notification core

Shallow embedding of the TyreTerra telegram-bot core (`src/v1_bot.py`,
`src/en_v1_bot.py`) in Lean 4.

Conventions used throughout this development:

* Python strings are modelled by `String`; `str.strip()` is modelled by
  a structural `pyStrip` over the character list.
* Python `float` values produced from decimal literals are modelled by exact
  rationals (`ℚ`); IEEE rounding of decimal literals and the special values
  `inf`/`nan` are outside the scope of this embedding — no claim exercises
  them.
* Character classes are the ASCII classes used by the source's regexes.
* The per-user FSM of `aiogram` is modelled explicitly: the transient
  conversation state of one user is `Option (step × data)`, `none` meaning
  "no active flow" (`state.clear()`).
* The per-message rate-limit gate (`check_rate_limit`) wraps every handler
  and returns early with no state change when it fires; the step functions
  below model what an *admitted* message does, which is what the conversation
  claims are about.
-/

namespace TyreTerra

/-! ## String helpers (translations of the Python primitives the bot uses)

These are implemented over `String.data` with structural recursion so that
every definition evaluates inside the kernel. -/

/-- The whitespace characters stripped by Python's `str.strip()`
(`' \t\n\r\x0b\x0c'`). -/
def pyWhitespace (c : Char) : Bool :=
  c = ' ' || c = '\t' || c = '\n' || c = '\r' || c = '\x0b' || c = '\x0c'

/-- `str.strip()`. -/
def pyStrip (s : String) : String :=
  ⟨((s.data.dropWhile pyWhitespace).reverse.dropWhile pyWhitespace).reverse⟩

/-- Fuel-driven replacement of every non-overlapping occurrence of `pat`
(left to right), as `str.replace(pat, rep)`.  The fuel is the input length;
each step consumes at least one character when `pat` is non-empty. -/
def replaceAllAux (pat rep : List Char) : Nat → List Char → List Char
  | 0, l => l
  | _ + 1, [] => []
  | fuel + 1, c :: rest =>
    if pat.isPrefixOf (c :: rest) then
      rep ++ replaceAllAux pat rep fuel (List.drop pat.length (c :: rest))
    else c :: replaceAllAux pat rep fuel rest

/-- `str.replace(pat, rep)` for a non-empty `pat` (the source never replaces
an empty pattern). -/
def pyReplace (s pat rep : String) : String :=
  if pat.data.isEmpty then s
  else ⟨replaceAllAux pat.data rep.data s.data.length s.data⟩

/-- Split at every character satisfying `p` (separators are dropped); the
single-character case of `str.split(sep)` / `re`-free splitting. -/
def splitPred (p : Char → Bool) : List Char → List (List Char)
  | [] => [[]]
  | c :: rest =>
    match splitPred p rest with
    | [] => [[]]
    | h :: t => if p c then [] :: h :: t else (c :: h) :: t

/-- Split at a single separator character. -/
def splitChar (sep : Char) (l : List Char) : List (List Char) :=
  splitPred (fun c => c = sep) l

/-- `str.isdigit()` for an ASCII character list: non-empty and all decimal
digits. -/
def isDigitL (l : List Char) : Bool :=
  !l.isEmpty && l.all Char.isDigit

/-- Value of a list of decimal digits. -/
def digitsVal (l : List Char) : Nat :=
  l.foldl (fun n c => 10 * n + (c.toNat - 48)) 0

/-- `str.isdigit()` for ASCII strings. -/
def isDigitStr (s : String) : Bool :=
  isDigitL s.data

/-- Value of a string of decimal digits (`int(s)` for an all-digit `s`). -/
def digitsToNat (s : String) : Nat :=
  digitsVal s.data

/-! ## Validators (`v1_bot.py` lines 334-343, identical in `en_v1_bot.py`) -/

/-- Allowed characters of the local part of the email regex
`[a-zA-Z0-9._%+-]`. -/
def emailLocalChar (c : Char) : Bool :=
  c.isAlphanum || c = '.' || c = '_' || c = '%' || c = '+' || c = '-'

/-- Allowed characters of the domain part of the email regex
`[a-zA-Z0-9.-]`. -/
def emailDomainChar (c : Char) : Bool :=
  c.isAlphanum || c = '.' || c = '-'

/-- `validate_email`: `re.match(r'^[a-zA-Z0-9._%+-]+@[a-zA-Z0-9.-]+\.[a-zA-Z]{2,}$', email)`.
Since neither character class contains `@`, a match forces exactly one `@`;
since the trailing group `[a-zA-Z]{2,}` contains no dot, the dot of `\.` is
necessarily the last dot of the domain.  Python's `$` also matches just
before one trailing newline, hence the `dropRight` step. -/
def validate_email (email : String) : Bool :=
  let e := if email.data.getLast? = some '\n' then email.data.dropLast else email.data
  match splitChar '@' e with
  | [l, r] =>
    (!l.isEmpty && l.all emailLocalChar) &&
    (match (splitChar '.' r).reverse with
     | tld :: rest =>
       decide (rest.length ≥ 1) &&
       (decide (tld.length ≥ 2) && tld.all Char.isAlpha) &&
       (let dom := List.intercalate ['.'] rest.reverse
        !dom.isEmpty && dom.all emailDomainChar)
     | [] => false)
  | _ => false

/-- `validate_inn`: `inn.isdigit() and len(inn) in [10, 12]`. -/
def validate_inn (inn : String) : Bool :=
  isDigitStr inn && (inn.data.length = 10 || inn.data.length = 12)

/-- `validate_phone`: strip `+7`→`8`, spaces, dashes, parentheses; then must
be all digits, exactly 11 of them, starting with `8`. -/
def validate_phone (phone : String) : Bool :=
  let p := pyReplace (pyReplace (pyReplace (pyReplace (pyReplace phone "+7" "8") " " "") "-" "") "(" "") ")" ""
  isDigitStr p && p.data.length = 11 && List.isPrefixOf ['8'] p.data

/-! ## Field parsers of the add-item flow (`v1_bot.py`) -/

/-- Quantity parsing of `process_qty` (`v1_bot.py` lines 1646-1656):
`qty_text = message.text.strip()`, reject unless `qty_text.isdigit()`,
then `int(qty_text)`.  Returns `none` when the digit test fails. -/
def parseQty (text : String) : Option Nat :=
  let t := pyStrip text
  if isDigitStr t then some (digitsToNat t) else none

/-- Decimal-literal check and value of the price regex `^\d+(\.\d+)?$`
followed by `float(...)` (`v1_bot.py` lines 1677-1684, 1708-1715).  The
value is the exact rational denoted by the literal. -/
def parseDecimal (s : String) : Option ℚ :=
  match splitChar '.' s.data with
  | [a] => if isDigitL a then some ((digitsVal a : ℚ)) else none
  | [a, b] =>
    if isDigitL a && isDigitL b then
      some ((digitsVal a : ℚ) + (digitsVal b : ℚ) / ((10 : ℚ) ^ b.length))
    else none
  | _ => none

/-- Price normalisation + parse of `process_retail_price` /
`process_wholesale_price`:
`price_text = message.text.strip().replace(',', '.').replace(' ', '')`,
regex check, `float(price_text)`. -/
def parsePrice (text : String) : Option ℚ :=
  parseDecimal (pyReplace (pyReplace (pyStrip text) "," ".") " " "")

/-! ## The add-item conversation flow of `v1_bot.py` (`AddStock` states) -/

/-- The ordered steps of the `AddStock` states group (`v1_bot.py` lines
274-283). -/
inductive AddStep
  | sku | size | pattern | brand | country
  | qty | retailPrice | wholesalePrice | warehouse
deriving DecidableEq, Repr

/-- The partial field map accumulated by `state.update_data(...)` during the
add-item flow.  `none` = key not yet present. -/
structure AddData where
  sku : Option String := none
  tyre_size : Option String := none
  tyre_pattern : Option String := none
  brand : Option String := none
  country : Option String := none
  qty_available : Option Nat := none
  retail_price : Option ℚ := none
  wholesale_price : Option ℚ := none
deriving DecidableEq, Repr

/-- Field map right after `state.set_state(AddStock.waiting_for_sku)`
(preceded by `state.clear()` or a fresh context, so empty). -/
def emptyAddData : AddData := {}

/-- One inventory record as inserted into the `stock` table.
`qty_available` is an SQL INTEGER, `wholesale_price` is nullable REAL
(bulk import stores NULL for a missing/negative wholesale price). -/
structure StockRow where
  sku : String
  tyre_size : String
  tyre_pattern : String
  brand : String
  country : String
  qty_available : ℤ
  retail_price : ℚ
  wholesale_price : Option ℚ
  warehouse_location : String
deriving DecidableEq, Repr

/-- Outcome of one admitted message at one step of a flow. -/
inductive StepResult
  | cancelled
  | rejected (reason : String)
  | advanced (next : AddStep)
  | completed (record : StockRow)
  | commitFailed
deriving DecidableEq, Repr

/-- `true` exactly on `StepResult.rejected _`. -/
def StepResult.isRejected : StepResult → Bool
  | .rejected _ => true
  | _ => false

/-- The records a step outcome commits to the store (`INSERT INTO stock`
happens only in the completion branch). -/
def committedOf : StepResult → List StockRow
  | .completed r => [r]
  | _ => []

/-- The reserved cancel inputs of `v1_bot.py`: the `/cancel` command and the
`❌ Отмена` button text.  Every `process_*` handler checks them first
(e.g. lines 1642-1644), and the dispatcher-level `cancel_handler`
(lines 751-769) catches them before any state handler registered later. -/
def isCancel (text : String) : Bool :=
  text = "/cancel" || text = "❌ Отмена"

/-- `process_warehouse_final` (`v1_bot.py` lines 1741-1821): builds the
`INSERT INTO stock` from the accumulated field map; a missing key raises
`KeyError`, which is caught and reported, and `state.clear()` runs
unconditionally in either case. -/
def commitAdd (d : AddData) (warehouse_location : String) : StepResult :=
  match d.sku, d.tyre_size, d.tyre_pattern, d.brand, d.country,
        d.qty_available, d.retail_price, d.wholesale_price with
  | some s, some sz, some pt, some br, some co, some q, some r, some w =>
    .completed ⟨s, sz, pt, br, co, (q : ℤ), r, some w, warehouse_location⟩
  | _, _, _, _, _, _, _, _ => .commitFailed

/-- One admitted message at one step of the `v1_bot.py` add-item flow
(`process_sku` … `process_warehouse_final`, lines 1551-1821).
Returns the outcome and the user's conversation state afterwards. -/
def submitAdd (step : AddStep) (d : AddData) (text : String) :
    StepResult × Option (AddStep × AddData) :=
  if isCancel text = true then (.cancelled, none)
  else
    match step with
    | .sku => (.advanced .size, some (.size, { d with sku := some text }))
    | .size => (.advanced .pattern, some (.pattern, { d with tyre_size := some text }))
    | .pattern => (.advanced .brand, some (.brand, { d with tyre_pattern := some text }))
    | .brand => (.advanced .country, some (.country, { d with brand := some text }))
    | .country => (.advanced .qty, some (.qty, { d with country := some text }))
    | .qty =>
      match parseQty text with
      | none => (.rejected "Количество должно быть числом", some (.qty, d))
      | some n =>
        if n ≤ 0 then (.rejected "Количество должно быть положительным числом", some (.qty, d))
        else (.advanced .retailPrice, some (.retailPrice, { d with qty_available := some n }))
    | .retailPrice =>
      match parsePrice text with
      | none => (.rejected "Цена должна быть числом", some (.retailPrice, d))
      | some p =>
        if p ≤ 0 then (.rejected "Цена должна быть положительным числом", some (.retailPrice, d))
        else (.advanced .wholesalePrice, some (.wholesalePrice, { d with retail_price := some p }))
    | .wholesalePrice =>
      match parsePrice text with
      | none => (.rejected "Цена должна быть числом", some (.wholesalePrice, d))
      | some p =>
        if p ≤ 0 then (.rejected "Цена должна быть положительным числом", some (.wholesalePrice, d))
        else (.advanced .warehouse, some (.warehouse, { d with wholesale_price := some p }))
    | .warehouse => (commitAdd d text, none)

/-- `cmd_addstock` (lines 1516-1549), state-machine aspect: if a
conversation is already active the command is refused ("завершите ее или
отмените") and the state is untouched; otherwise the flow starts at the
SKU step with an empty field map. -/
def startAdd (current : Option (AddStep × AddData)) : Option (AddStep × AddData) :=
  match current with
  | some st => some st
  | none => some (.sku, emptyAddData)

/-- Fold one admitted message into (conversation state, committed records).
With no active flow the message is handled outside the add-item flow and
commits nothing. -/
def addStepFold (acc : Option (AddStep × AddData) × List StockRow) (text : String) :
    Option (AddStep × AddData) × List StockRow :=
  match acc.1 with
  | none => acc
  | some (step, d) =>
    let r := submitAdd step d text
    (r.2, acc.2 ++ committedOf r.1)

/-- Run the add-item flow from its start on a sequence of admitted messages,
collecting every record committed along the way. -/
def runAddFlow (inputs : List String) : Option (AddStep × AddData) × List StockRow :=
  inputs.foldl addStepFold (some (.sku, emptyAddData), [])

/-! ## The registration conversation flow of `v1_bot.py` (`Registration` states) -/

/-- The ordered steps of the `Registration` states group (`v1_bot.py` lines
267-272). -/
inductive RegStep
  | role | company | inn | phone | email
deriving DecidableEq, Repr

/-- Partial field map of the registration flow. -/
structure RegData where
  role : Option String := none
  name : Option String := none
  company_name : Option String := none
  inn : Option String := none
  phone : Option String := none
deriving DecidableEq, Repr

/-- Empty registration field map. -/
def emptyRegData : RegData := {}

/-- One row of the `users` table as inserted by `process_email`
(without the DB-generated id and timestamp). -/
structure UserRow where
  name : String
  company_name : String
  inn : String
  phone : String
  email : String
  role : String
deriving DecidableEq, Repr

/-- Outcome of one admitted message at one registration step. -/
inductive RegResult
  | cancelled
  | rejected (reason : String)
  | advanced (next : RegStep)
  | completed (record : UserRow)
  | commitFailed
deriving DecidableEq, Repr

/-- `true` exactly on `RegResult.rejected _`. -/
def RegResult.isRejected : RegResult → Bool
  | .rejected _ => true
  | _ => false

/-- One admitted message at one step of the `v1_bot.py` registration flow
(`process_role` … `process_email`, lines 2181-2272).  `userName` is the
sender's `full_name`, which `process_role` stores alongside the chosen
role.  The cancel inputs are intercepted by the dispatcher-level
`cancel_handler`, registered before every `Registration` state handler. -/
def submitReg (userName : String) (step : RegStep) (d : RegData) (text : String) :
    RegResult × Option (RegStep × RegData) :=
  if isCancel text = true then (.cancelled, none)
  else
    match step with
    | .role =>
      if text = "Дилер" ∨ text = "Покупатель" then
        (.advanced .company, some (.company, { d with role := some text, name := some userName }))
      else (.rejected "выберите роль из предложенных вариантов", some (.role, d))
    | .company =>
      (.advanced .inn, some (.inn, { d with company_name := some text }))
    | .inn =>
      let inn := pyStrip text
      if validate_inn inn = true then
        (.advanced .phone, some (.phone, { d with inn := some inn }))
      else (.rejected "Неверный формат ИНН", some (.inn, d))
    | .phone =>
      let p := pyStrip text
      if validate_phone p = true then
        (.advanced .email, some (.email, { d with phone := some p }))
      else (.rejected "Неверный формат телефона", some (.phone, d))
    | .email =>
      let e := pyStrip text
      if validate_email e = true then
        match d.name, d.company_name, d.inn, d.phone, d.role with
        | some nm, some co, some i, some ph, some ro =>
          (.completed ⟨nm, co, i, ph, e, ro⟩, none)
        | _, _, _, _, _ => (.commitFailed, none)
      else (.rejected "Неверный формат email", some (.email, d))

/-! ## The add-item flow of `en_v1_bot.py`

Same step set, but: the only cancel input is `/cancel`; quantity is parsed
with bare `int(message.text)` and prices with bare `float(message.text)`;
and — the point of claim C4 — `process_wholesale_price` (lines 657-675)
prompts for the warehouse location but never calls
`state.set_state(AddStock.waiting_for_warehouse)`, so the FSM stays in the
wholesale-price state. -/

/-- Digit run with the underscore rule of Python numeric literals accepted
by `int()`/`float()`: non-empty, underscores only between digits. -/
def digitsU : List Char → Bool
  | [] => false
  | [c] => c.isDigit
  | c :: '_' :: rest => c.isDigit && digitsU rest
  | c :: c2 :: rest => c.isDigit && digitsU (c2 :: rest)

/-- Value of a digit run after removing its legal underscores. -/
def digitsUVal (l : List Char) : Nat :=
  digitsVal (l.filter (fun c => c ≠ '_'))

/-- Digit count of a digit run after removing its legal underscores. -/
def digitsULen (l : List Char) : Nat :=
  (l.filter (fun c => c ≠ '_')).length

/-- `int(text)` for ASCII input: optional surrounding whitespace, optional
sign, then digits (with legal underscores).  `none` models `ValueError`. -/
def parsePyInt (text : String) : Option ℤ :=
  let t := (pyStrip text).data
  let neg := List.isPrefixOf ['-'] t
  let u := if List.isPrefixOf ['-'] t ∨ List.isPrefixOf ['+'] t then t.drop 1 else t
  if digitsU u then
    some ((if neg then -1 else 1) * (digitsUVal u : ℤ))
  else none

/-- Mantissa of a `float()` literal: `d+`, `d+.`, `d+.d+` or `.d+`
(digit runs may contain legal underscores). -/
def parsePyMantissa (m : List Char) : Option ℚ :=
  match splitChar '.' m with
  | [ip] => if digitsU ip then some ((digitsUVal ip : ℚ)) else none
  | [ip, fp] =>
    if ip = [] then
      if digitsU fp then
        some ((digitsUVal fp : ℚ) / ((10 : ℚ) ^ digitsULen fp))
      else none
    else if fp = [] then
      if digitsU ip then some ((digitsUVal ip : ℚ)) else none
    else
      if digitsU ip && digitsU fp then
        some ((digitsUVal ip : ℚ) + (digitsUVal fp : ℚ) / ((10 : ℚ) ^ digitsULen fp))
      else none
  | _ => none

/-- Exponent of a `float()` literal: optional sign then digits. -/
def parsePyExp (e : List Char) : Option ℤ :=
  let neg := List.isPrefixOf ['-'] e
  let u := if List.isPrefixOf ['-'] e ∨ List.isPrefixOf ['+'] e then e.drop 1 else e
  if digitsU u then
    some ((if neg then -1 else 1) * (digitsUVal u : ℤ))
  else none

/-- `float(text)` for ASCII finite decimal literals: optional surrounding
whitespace, optional sign, mantissa, optional `e`/`E` exponent.  The exact
rational value is returned; IEEE rounding and the `inf`/`nan` literals are
outside this embedding (no claim exercises them). -/
def parsePyFloat (text : String) : Option ℚ :=
  let t := (pyStrip text).data
  let sgn : ℚ := if List.isPrefixOf ['-'] t then -1 else 1
  let u := if List.isPrefixOf ['-'] t ∨ List.isPrefixOf ['+'] t then t.drop 1 else t
  match splitPred (fun c => c = 'e' || c = 'E') u with
  | [m] => (parsePyMantissa m).map (fun v => sgn * v)
  | [m, e] =>
    match parsePyMantissa m, parsePyExp e with
    | some mv, some ev => some (sgn * mv * (10 : ℚ) ^ ev)
    | _, _ => none
  | _ => none

/-- One admitted message at one step of the `en_v1_bot.py` add-item flow
(`process_sku` … `process_warehouse`, lines 545-724).  Faithful to the
source, the success branch of the wholesale-price step updates the field
map and prompts "Enter warehouse location" but leaves the FSM state at
`waiting_for_wholesale_price` (no `set_state` call). -/
def submitAddEn (step : AddStep) (d : AddData) (text : String) :
    StepResult × Option (AddStep × AddData) :=
  if text = "/cancel" then (.cancelled, none)
  else
    match step with
    | .sku => (.advanced .size, some (.size, { d with sku := some text }))
    | .size => (.advanced .pattern, some (.pattern, { d with tyre_size := some text }))
    | .pattern => (.advanced .brand, some (.brand, { d with tyre_pattern := some text }))
    | .brand => (.advanced .country, some (.country, { d with brand := some text }))
    | .country => (.advanced .qty, some (.qty, { d with country := some text }))
    | .qty =>
      match parsePyInt text with
      | none => (.rejected "Please enter a valid number for quantity", some (.qty, d))
      | some n =>
        if n ≤ 0 then (.rejected "Quantity must be a positive number", some (.qty, d))
        else (.advanced .retailPrice, some (.retailPrice, { d with qty_available := some n.toNat }))
    | .retailPrice =>
      match parsePyFloat text with
      | none => (.rejected "Please enter a valid number for price", some (.retailPrice, d))
      | some p =>
        if p ≤ 0 then (.rejected "Price must be a positive number", some (.retailPrice, d))
        else (.advanced .wholesalePrice, some (.wholesalePrice, { d with retail_price := some p }))
    | .wholesalePrice =>
      match parsePyFloat text with
      | none => (.rejected "Please enter a valid number for price", some (.wholesalePrice, d))
      | some p =>
        if p ≤ 0 then (.rejected "Price must be a positive number", some (.wholesalePrice, d))
        else
          -- prompt says "Enter warehouse location:" but no set_state follows
          (.advanced .warehouse, some (.wholesalePrice, { d with wholesale_price := some p }))
    | .warehouse =>
      -- en_v1_bot's `process_warehouse` clears state first, then performs
      -- the same INSERT from the accumulated field map
      (commitAdd d text, none)

/-! ## Search-result redaction (`create_search_excel`, `en_v1_bot.py` lines 332-362)

The search query (`process_search_value`, lines 1021-1051) yields rows of 12
positional columns:
`sku, tyre_size, tyre_pattern, brand, country, qty_available, retail_price,
wholesale_price, warehouse_location, company_name, phone, email`
(indices 0-11).  A cell is an SQL value. -/

/-- One spreadsheet cell (SQL TEXT / INTEGER / nullable REAL). -/
inductive Cell
  | s (v : String)
  | n (v : ℤ)
  | q (v : Option ℚ)
deriving DecidableEq, Repr

/-- The buyer-branch row transformation of `create_search_excel`:
`list(item[:6]) + [item[6]] + [item[8]] + [item[9]]`.  Indexing past the end
of the row raises `IndexError` (modelled by `none`), which propagates out of
the function. -/
def redactRowBuyer (item : List Cell) : Option (List Cell) :=
  match item[6]?, item[8]?, item[9]? with
  | some c6, some c8, some c9 => some (item.take 6 ++ [c6, c8, c9])
  | _, _, _ => none

/-- The `for item in stock_items` loop of the buyer branch: builds the
processed rows in order; an `IndexError` in any row aborts the whole
call. -/
def redactRowsBuyer : List (List Cell) → Option (List (List Cell))
  | [] => some []
  | item :: rest =>
    match redactRowBuyer item with
    | none => none
    | some p =>
      match redactRowsBuyer rest with
      | none => none
      | some ps => some (p :: ps)

/-- Column headers written for buyers. -/
def buyerColumns : List String :=
  ["sku", "tyre_size", "tyre_pattern", "brand", "country",
   "qty_available", "retail_price", "warehouse_location", "company_name"]

/-- Column headers written for dealers and admins. -/
def fullColumns : List String :=
  ["sku", "tyre_size", "tyre_pattern", "brand", "country",
   "qty_available", "retail_price", "wholesale_price", "warehouse_location",
   "company_name", "phone", "email"]

/-- `create_search_excel`: `None` for an empty result set; for
`user_role == 'Buyer'` every row goes through the positional slice above
(an `IndexError` aborts the whole call); any other role gets all rows
unchanged.  The result is the written table: headers and rows. -/
def create_search_excel (stock_items : List (List Cell)) (user_role : String) :
    Option (List String × List (List Cell)) :=
  if stock_items.isEmpty then none
  else if user_role = "Buyer" then
    match redactRowsBuyer stock_items with
    | some rows => some (buyerColumns, rows)
    | none => none
  else some (fullColumns, stock_items)

/-! ## Bulk Excel import (`process_excel_file`, `v1_bot.py` lines 520-745)

One spreadsheet row after the column mapping has been resolved.  For each
field, `none` covers "column absent", "cell is NaN" and — for the numeric
fields — "value unparseable" (the source turns all three into the same
default).  String cells are `str(v).strip()`. -/

structure ExcelRow where
  sku : Option String := none
  size : Option String := none
  brand : Option String := none
  pattern : Option String := none
  country : Option String := none
  qty : Option ℚ := none
  retail : Option ℚ := none
  wholesale : Option ℚ := none
  warehouse : Option String := none
deriving DecidableEq, Repr

/-- String value of an optional text cell: `""` when absent, else stripped. -/
def cellStr (o : Option String) : String :=
  match o with
  | none => ""
  | some s => pyStrip s

/-- `int(x)` on a rational: truncation toward zero. -/
def truncToInt (x : ℚ) : ℤ :=
  if 0 ≤ x then x.floor else -((-x).floor)

/-- Quantity column handling (lines 606-616): default `1`; a parsed value
`int(float(v))` that is `<= 0` is coerced to `1`. -/
def excelQty (v : Option ℚ) : ℤ :=
  match v with
  | none => 1
  | some x => if truncToInt x ≤ 0 then 1 else truncToInt x

/-- Retail-price column handling (lines 618-628): default `0.0`; a negative
parsed value is coerced to `0.0`. -/
def excelRetail (v : Option ℚ) : ℚ :=
  match v with
  | none => 0
  | some x => if x < 0 then 0 else x

/-- Wholesale-price column handling (lines 630-640): default `NULL`; a
negative parsed value is coerced to `NULL`. -/
def excelWholesale (v : Option ℚ) : Option ℚ :=
  match v with
  | none => none
  | some x => if x < 0 then none else some x

/-- Per-row processing of `process_excel_file` (lines 566-661).  A row whose
SKU, size and brand are all blank is skipped (`none`); this also covers the
all-cells-empty skip at line 569.  `tempSku` stands for the generated
`temp_{user_id}_{index}_{time}` SKU used when the SKU cell is blank.  The
`MAX_STOCK_ITEMS` cut-off, which stops the whole loop, is about how many
rows are inserted, not about their values, and is not modelled here. -/
def processExcelRow (tempSku : String) (r : ExcelRow) : Option StockRow :=
  let sku := cellStr r.sku
  let tyre_size := cellStr r.size
  let brand := cellStr r.brand
  if sku = "" ∧ tyre_size = "" ∧ brand = "" then none
  else
    some { sku := if sku = "" then tempSku else sku
           tyre_size := tyre_size
           tyre_pattern := cellStr r.pattern
           brand := brand
           country := cellStr r.country
           qty_available := excelQty r.qty
           retail_price := excelRetail r.retail
           wholesale_price := excelWholesale r.wholesale
           warehouse_location := cellStr r.warehouse }

/-! ## Subscriptions (`v1_bot.py` lines 205-229, 1385-1429) -/

/-- One row of the `subscriptions` table (without id/timestamp).
`user` is the subscribing account's internal id. -/
structure SubRow where
  user : ℤ
  subscription_type : String
  subscription_value : String
deriving DecidableEq, Repr

/-- The `WHERE user_id = ? AND subscription_type = ? AND subscription_value = ?`
predicate. -/
def subKeyMatch (u : ℤ) (k v : String) (s : SubRow) : Bool :=
  s.user = u && s.subscription_type = k && s.subscription_value = v

/-- The duplicate check of `process_subscription_value_internal`
(`SELECT id FROM subscriptions WHERE user_id = ? AND subscription_type = ?
AND subscription_value = ?`). -/
def subExists (store : List SubRow) (u : ℤ) (k v : String) : Bool :=
  store.any (subKeyMatch u k v)

/-- The two reply branches of `process_subscription_value_internal`. -/
inductive SubResult
  | alreadySubscribed
  | subscribed
deriving DecidableEq, Repr

/-- `process_subscription_value_internal` (lines 1397-1429): if a row with
the same (account, kind, value) exists, answer "Вы уже подписаны" and leave
the table alone; otherwise `add_subscription` inserts one row. -/
def processSubscriptionValue (store : List SubRow) (u : ℤ) (k v : String) :
    SubResult × List SubRow :=
  if subExists store u k v = true then (.alreadySubscribed, store)
  else (.subscribed, store ++ [⟨u, k, v⟩])

/-- Run a sequence of subscribe attempts against an initially empty table. -/
def runSubscribe (ops : List (ℤ × String × String)) : List SubRow :=
  ops.foldl (fun st op => (processSubscriptionValue st op.1 op.2.1 op.2.2).2) []

/-! ## Notification fan-out -/

/-- `get_subscribers` (lines 223-229): `SELECT DISTINCT u.telegram_id … WHERE
s.subscription_type = ? AND s.subscription_value = ?`.  Accounts are
identified by a single id (the users-table join maps internal ids to chat
ids injectively; nothing here depends on the distinction). -/
def get_subscribers (subs : List SubRow) (k v : String) : List ℤ :=
  (((subs.filter (fun s => s.subscription_type = k && s.subscription_value = v)).map
      (fun s => s.user))).dedup

/-- One delivered notification: recipient, the (kind, value) pair it was
sent for, and the message text. -/
structure Delivery where
  user : ℤ
  kind : String
  value : String
  text : String
deriving DecidableEq, Repr

/-- Modelled from the spec: `send_notifications` is called throughout
`v1_bot.py` (lines 699, 714, 721, 1775, 1782, 1789) but defined nowhere in
the repository.  Per the spec's notification contract, it looks up the
subscribers of the (kind, value) pair and delivers the message once to each
of them. -/
def send_notifications (subs : List SubRow) (k v text : String) : List Delivery :=
  (get_subscribers subs k v).map (fun u => ⟨u, k, v, text⟩)

/-- Notification block of `process_warehouse_final` (lines 1768-1790): one
send per pair — the new item's brand, its size, and the dealer's company
name — each guarded by a non-empty subscriber lookup. -/
def singleAddNotifications (subs : List SubRow) (company brand size pat : String) :
    List Delivery :=
  (if get_subscribers subs "brand" brand ≠ [] then
     send_notifications subs "brand" brand
       ("Новый товар бренда " ++ brand ++ ": " ++ size ++ " " ++ pat)
   else []) ++
  (if get_subscribers subs "tyre_size" size ≠ [] then
     send_notifications subs "tyre_size" size
       ("Новый товар размера " ++ size ++ ": " ++ brand ++ " " ++ pat)
   else []) ++
  (if get_subscribers subs "dealer" company ≠ [] then
     send_notifications subs "dealer" company
       ("Новый товар от " ++ company ++ ": " ++ brand ++ " " ++ size)
   else [])

/-- Insertion sort of (id, row) pairs by descending id — the
`ORDER BY id DESC` of the distinct-brand/size queries. -/
def insertByIdDesc (p : ℕ × StockRow) : List (ℕ × StockRow) → List (ℕ × StockRow)
  | [] => [p]
  | q :: rest => if q.1 ≤ p.1 then p :: q :: rest else q :: insertByIdDesc p rest

/-- Sort a stock table by descending id. -/
def sortByIdDesc (l : List (ℕ × StockRow)) : List (ℕ × StockRow) :=
  l.foldr insertByIdDesc []

/-- `SELECT DISTINCT brand FROM stock WHERE user_id = ? AND brand != ''
ORDER BY id DESC LIMIT 10` (lines 688-691), over the dealer's ENTIRE stock
table (old rows included), evaluated after the batch was inserted.
Duplicates are collapsed keeping the most recent occurrence first. -/
def bulkBrandValues (stock : List (ℕ × StockRow)) : List String :=
  ((((sortByIdDesc stock).map (fun p => p.2.brand)).filter (fun b => b ≠ "")).dedup).take 10

/-- Same for `tyre_size` (lines 703-706). -/
def bulkSizeValues (stock : List (ℕ × StockRow)) : List String :=
  ((((sortByIdDesc stock).map (fun p => p.2.tyre_size)).filter (fun b => b ≠ "")).dedup).take 10

/-- Notification block of `process_excel_file` (lines 683-726): one send per
distinct brand of the dealer's whole stock (≤ 10 of them), one per distinct
size (≤ 10), and one for the dealer's company name — each guarded as in the
source. -/
def bulkNotifications (stock : List (ℕ × StockRow)) (company : String)
    (subs : List SubRow) : List Delivery :=
  ((bulkBrandValues stock).flatMap (fun b =>
    if b ≠ "" then
      (if get_subscribers subs "brand" b ≠ [] then
         send_notifications subs "brand" b ("Загружены новые товары бренда " ++ b)
       else [])
    else [])) ++
  ((bulkSizeValues stock).flatMap (fun sz =>
    if sz ≠ "" then
      (if get_subscribers subs "tyre_size" sz ≠ [] then
         send_notifications subs "tyre_size" sz ("Загружены новые товары размера " ++ sz)
       else [])
    else [])) ++
  (if get_subscribers subs "dealer" company ≠ [] then
     send_notifications subs "dealer" company
       ("Дилер " ++ company ++ " загрузил новые товары")
   else [])

/-! ## Rate limiter (`RateLimiter.is_limited`, `v1_bot.py` lines 71-90)

Timestamps are rationals (`time.time()` values); the instance in use is
`RateLimiter()` with the default `max_requests=10`, `window=60`. -/

/-- The pruning step: keep only timestamps with `now - req_time < window`. -/
def pruneRequests (l : List ℚ) (now : ℚ) : List ℚ :=
  l.filter (fun t => now - t < 60)

/-- `is_limited` on one user's timestamp list: prune, store the pruned list;
if it already holds `max_requests` entries report limited without recording
anything, otherwise record `now` and admit. -/
def is_limited (l : List ℚ) (now : ℚ) : Bool × List ℚ :=
  let pruned := pruneRequests l now
  if 10 ≤ pruned.length then (true, pruned)
  else (false, pruned ++ [now])

/-- The retained list of one user after a sequence of calls at the given
times, starting from no history. -/
def runLimiter (times : List ℚ) : List ℚ :=
  times.foldl (fun l t => (is_limited l t).2) []

/-- Field map of an `en_v1_bot.py` add-item run that has passed all steps
up to and including the retail price. -/
def enC4Data : AddData :=
  { sku := some "T100", tyre_size := some "195/65 R15", tyre_pattern := some "X",
    brand := some "Michelin", country := some "France",
    qty_available := some 10, retail_price := some 4500 }

/-- `enC4Data` after a valid wholesale price was stored. -/
def enC4Data2 : AddData :=
  { enC4Data with wholesale_price := some 4000 }

/-- One result row of the search query of `process_search_value`
(`en_v1_bot.py` lines 1021-1051), with its 12 positional columns named. -/
structure SearchRow where
  sku : Cell
  tyre_size : Cell
  tyre_pattern : Cell
  brand : Cell
  country : Cell
  qty_available : Cell
  retail_price : Cell
  wholesale_price : Cell
  warehouse_location : Cell
  company_name : Cell
  phone : Cell
  email : Cell
deriving DecidableEq, Repr

/-- The positional tuple the query hands to `create_search_excel`. -/
def SearchRow.toCells (r : SearchRow) : List Cell :=
  [r.sku, r.tyre_size, r.tyre_pattern, r.brand, r.country, r.qty_available,
   r.retail_price, r.wholesale_price, r.warehouse_location, r.company_name,
   r.phone, r.email]

/-- Invariant of the add-item field map: any stored quantity and retail
price are positive (they were stored by the accepting branches of
`process_qty` / `process_retail_price`). -/
def addDataOk (d : AddData) : Prop :=
  (∀ n, d.qty_available = some n → 0 < n) ∧
  (∀ p, d.retail_price = some p → 0 < p)

/-- Number of stored subscription rows with the given (account, kind,
value) key. -/
def countSub (store : List SubRow) (u : ℤ) (k v : String) : Nat :=
  (store.filter (subKeyMatch u k v)).length

/-- Number of deliveries that reached account `u` for the pair (k, v). -/
def deliveryCount (ds : List Delivery) (u : ℤ) (k v : String) : Nat :=
  (ds.filter (fun dl => dl.user = u && dl.kind = k && dl.value = v)).length

/-- The (kind, value) pairs the bulk-import fan-out actually derives: the
distinct non-empty brands and sizes of the dealer's whole stock (at most 10
each), plus the dealer's company name. -/
def bulkPairs (stock : List (ℕ × StockRow)) (company : String) :
    List (String × String) :=
  (bulkBrandValues stock).map (fun b => ("brand", b)) ++
  (bulkSizeValues stock).map (fun sz => ("tyre_size", sz)) ++
  [("dealer", company)]

/-- The (kind, value) pairs the single-add fan-out derives. -/
def singlePairs (company brand size : String) : List (String × String) :=
  [("brand", brand), ("tyre_size", size), ("dealer", company)]

/-- A pre-existing stock row (id 1) of the importing dealer. -/
def c9OldRow : StockRow := ⟨"N1", "", "", "Nokian", "", 1, 1, none, ""⟩

/-- The one row of the newly imported batch (id 2). -/
def c9NewRow : StockRow := ⟨"P1", "195/65 R15", "", "Pirelli", "", 1, 1, none, ""⟩

/-! ## Claims -/

/-- C1: a complete run of the add-item flow in which each step's input
passes its validator commits exactly one inventory record, whose fields are
exactly the validated values entered at each step — the free-text fields
verbatim, the quantity as the parsed integer, the prices as the parsed
decimals — and the conversation state is cleared. -/
theorem addItem_roundtrip
    (i1 i2 i3 i4 i5 i6 i7 i8 i9 : String)
    (h1 : isCancel i1 = false) (h2 : isCancel i2 = false) (h3 : isCancel i3 = false)
    (h4 : isCancel i4 = false) (h5 : isCancel i5 = false) (h6 : isCancel i6 = false)
    (h7 : isCancel i7 = false) (h8 : isCancel i8 = false) (h9 : isCancel i9 = false)
    (q : ℕ) (hq : parseQty i6 = some q) (hq0 : 0 < q)
    (r : ℚ) (hr : parsePrice i7 = some r) (hr0 : 0 < r)
    (w : ℚ) (hw : parsePrice i8 = some w) (hw0 : 0 < w) :
    runAddFlow [i1, i2, i3, i4, i5, i6, i7, i8, i9] =
      (none, [⟨i1, i2, i3, i4, i5, (q : ℤ), r, some w, i9⟩]) := by
  have hq' : ¬ (q ≤ 0) := by omega
  have hr' : ¬ (r ≤ 0) := not_le.mpr hr0
  have hw' : ¬ (w ≤ 0) := not_le.mpr hw0
  simp [runAddFlow, List.foldl, addStepFold, submitAdd, commitAdd, h1, h2, h3,
        h4, h5, h6, h7, h8, h9, hq, hr, hw, hq', hr', hw', committedOf,
        emptyAddData]

/-- Witness for C1: example scenario 1 of the spec. -/
theorem addItem_roundtrip_witness :
    runAddFlow ["T100", "195/65 R15", "X", "Michelin", "France", "10", "4500", "4000", "MSK-1"] =
      (none, [⟨"T100", "195/65 R15", "X", "Michelin", "France", (10 : ℤ), (4500 : ℚ),
              some (4000 : ℚ), "MSK-1"⟩]) :=
  addItem_roundtrip "T100" "195/65 R15" "X" "Michelin" "France" "10" "4500" "4000" "MSK-1"
    (by decide) (by decide) (by decide) (by decide) (by decide) (by decide)
    (by decide) (by decide) (by decide)
    10 (by decide) (by decide)
    4500 (by decide) (by decide)
    4000 (by decide) (by decide)

/-- C2: at every step of the modelled multi-step flows (add-item and
registration in `v1_bot.py`, add-item in `en_v1_bot.py`), submitting the
reserved cancel token clears the user's conversation state and commits no
record, regardless of the accumulated data — the cancel check precedes all
field validation — and a subsequent start of the add-item flow begins at
the SKU step with an empty field map. -/
theorem cancel_clears_state
    (text : String) (h : text = "/cancel" ∨ text = "❌ Отмена") :
    (∀ (step : AddStep) (d : AddData),
       submitAdd step d text = (.cancelled, none)) ∧
    (∀ (userName : String) (step : RegStep) (d : RegData),
       submitReg userName step d text = (.cancelled, none)) ∧
    (∀ (step : AddStep) (d : AddData),
       submitAddEn step d "/cancel" = (.cancelled, none)) ∧
    (∀ (step : AddStep) (d : AddData),
       committedOf (submitAdd step d text).1 = []) ∧
    startAdd none = some (.sku, emptyAddData) := by
  have hc : isCancel text = true := by
    rcases h with h | h <;> subst h <;> decide
  refine ⟨?_, ?_, ?_, ?_, rfl⟩
  · intro step d; simp [submitAdd, hc]
  · intro u step d; simp [submitReg, hc]
  · intro step d; simp [submitAddEn]
  · intro step d; simp [submitAdd, hc, committedOf]

/-- Witness for C2: cancelling mid-flow at concrete steps. -/
theorem cancel_clears_state_witness :
    submitAdd .qty emptyAddData "/cancel" = (.cancelled, none) ∧
    submitReg "U" .inn emptyRegData "❌ Отмена" = (.cancelled, none) ∧
    submitAddEn .wholesalePrice emptyAddData "/cancel" = (.cancelled, none) ∧
    committedOf (submitAdd .warehouse emptyAddData "❌ Отмена").1 = [] ∧
    startAdd none = some (.sku, emptyAddData) :=
  ⟨(cancel_clears_state "/cancel" (Or.inl rfl)).1 .qty emptyAddData,
   (cancel_clears_state "❌ Отмена" (Or.inr rfl)).2.1 "U" .inn emptyRegData,
   (cancel_clears_state "/cancel" (Or.inl rfl)).2.2.1 .wholesalePrice emptyAddData,
   (cancel_clears_state "❌ Отмена" (Or.inr rfl)).2.2.2.1 .warehouse emptyAddData,
   (cancel_clears_state "/cancel" (Or.inl rfl)).2.2.2.2⟩

/-- C3: for every validated step of the modelled flows and every malformed
input, the engine replies with a rejection, the accumulated field map and
the current step are unchanged, and the same step is re-prompted — the
engine never advances on a rejected input.  Covered: quantity, retail
price and wholesale price of the add-item flows (both bots), and the role,
tax-id, phone and email steps of the registration flow. -/
theorem malformed_input_rejected
    (text : String) (hc : isCancel text = false) :
    (∀ d : AddData, (parseQty text = none ∨ parseQty text = some 0) →
       (submitAdd .qty d text).1.isRejected = true ∧
       (submitAdd .qty d text).2 = some (.qty, d)) ∧
    (∀ d : AddData, (parsePrice text = none ∨ ∃ p, parsePrice text = some p ∧ p ≤ 0) →
       (submitAdd .retailPrice d text).1.isRejected = true ∧
       (submitAdd .retailPrice d text).2 = some (.retailPrice, d)) ∧
    (∀ d : AddData, (parsePrice text = none ∨ ∃ p, parsePrice text = some p ∧ p ≤ 0) →
       (submitAdd .wholesalePrice d text).1.isRejected = true ∧
       (submitAdd .wholesalePrice d text).2 = some (.wholesalePrice, d)) ∧
    (∀ d : AddData, (parsePyInt text = none ∨ ∃ n, parsePyInt text = some n ∧ n ≤ 0) →
       (submitAddEn .qty d text).1.isRejected = true ∧
       (submitAddEn .qty d text).2 = some (.qty, d)) ∧
    (∀ (u : String) (rd : RegData), text ≠ "Дилер" → text ≠ "Покупатель" →
       (submitReg u .role rd text).1.isRejected = true ∧
       (submitReg u .role rd text).2 = some (.role, rd)) ∧
    (∀ (u : String) (rd : RegData), validate_inn (pyStrip text) = false →
       (submitReg u .inn rd text).1.isRejected = true ∧
       (submitReg u .inn rd text).2 = some (.inn, rd)) ∧
    (∀ (u : String) (rd : RegData), validate_phone (pyStrip text) = false →
       (submitReg u .phone rd text).1.isRejected = true ∧
       (submitReg u .phone rd text).2 = some (.phone, rd)) ∧
    (∀ (u : String) (rd : RegData), validate_email (pyStrip text) = false →
       (submitReg u .email rd text).1.isRejected = true ∧
       (submitReg u .email rd text).2 = some (.email, rd)) := by
  have hc2 : text ≠ "/cancel" := by
    intro e; subst e; simp [isCancel] at hc
  refine ⟨?_, ?_, ?_, ?_, ?_, ?_, ?_, ?_⟩
  · intro d h
    rcases h with h | h <;> simp [submitAdd, hc, h, StepResult.isRejected]
  · intro d h
    rcases h with h | ⟨p, hp, hple⟩ <;>
      simp_all [submitAdd, hc, StepResult.isRejected]
  · intro d h
    rcases h with h | ⟨p, hp, hple⟩ <;>
      simp_all [submitAdd, hc, StepResult.isRejected]
  · intro d h
    rcases h with h | ⟨n, hn, hnle⟩ <;>
      simp_all [submitAddEn, hc2, StepResult.isRejected]
  · intro u rd h1 h2
    simp [submitReg, hc, h1, h2, RegResult.isRejected]
  · intro u rd h
    simp [submitReg, hc, h, RegResult.isRejected]
  · intro u rd h
    simp [submitReg, hc, h, RegResult.isRejected]
  · intro u rd h
    simp [submitReg, hc, h, RegResult.isRejected]

/-- Witness for C3: the spec's example inputs — quantity `"0"` (parses to a
non-positive value), quantity `"-5"` (rejected by `isdigit` in `v1_bot.py`,
parsed to `-5 ≤ 0` in `en_v1_bot.py`), a non-numeric price `"abc"`, a
9-digit tax id, and `"not-an-email"`. -/
theorem malformed_input_rejected_witness :
    ((submitAdd .qty emptyAddData "0").1.isRejected = true ∧
     (submitAdd .qty emptyAddData "0").2 = some (.qty, emptyAddData)) ∧
    ((submitAdd .qty emptyAddData "-5").1.isRejected = true ∧
     (submitAdd .qty emptyAddData "-5").2 = some (.qty, emptyAddData)) ∧
    ((submitAddEn .qty emptyAddData "-5").1.isRejected = true ∧
     (submitAddEn .qty emptyAddData "-5").2 = some (.qty, emptyAddData)) ∧
    ((submitAdd .retailPrice emptyAddData "abc").1.isRejected = true ∧
     (submitAdd .retailPrice emptyAddData "abc").2 = some (.retailPrice, emptyAddData)) ∧
    ((submitReg "U" .inn emptyRegData "123456789").1.isRejected = true ∧
     (submitReg "U" .inn emptyRegData "123456789").2 = some (.inn, emptyRegData)) ∧
    ((submitReg "U" .email emptyRegData "not-an-email").1.isRejected = true ∧
     (submitReg "U" .email emptyRegData "not-an-email").2 = some (.email, emptyRegData)) :=
  ⟨(malformed_input_rejected "0" (by decide)).1 emptyAddData (Or.inr (by decide)),
   (malformed_input_rejected "-5" (by decide)).1 emptyAddData (Or.inl (by decide)),
   (malformed_input_rejected "-5" (by decide)).2.2.2.1 emptyAddData
     (Or.inr ⟨-5, by decide, by decide⟩),
   (malformed_input_rejected "abc" (by decide)).2.1 emptyAddData (Or.inl (by decide)),
   (malformed_input_rejected "123456789" (by decide)).2.2.2.2.2.1 "U" emptyRegData (by decide),
   (malformed_input_rejected "not-an-email" (by decide)).2.2.2.2.2.2.2 "U" emptyRegData
     (by decide)⟩

/-- `float("4000")` evaluates to `4000`. -/
theorem parsePyFloat_4000 : parsePyFloat "4000" = some 4000 := by
  have h : parsePyFloat "4000" = some ((1 : ℚ) * ((4000 : ℕ) : ℚ)) := rfl
  rw [h]; norm_num

/-- C4, evaluated at the failing input: in `en_v1_bot.py`, after a valid
wholesale price `"4000"` the engine prompts for the warehouse location but
the FSM state is still the wholesale-price step (`set_state` is missing in
`process_wholesale_price`), so the next input `"MSK-1"` is parsed as a
price and rejected — the flow never reaches the warehouse step and nothing
is committed.  This contradicts the claimed `Advanced(next_step)` contract
and the handler's own prompt; `v1_bot.py` performs the transition
correctly (`state.set_state(AddStock.waiting_for_warehouse)`). -/
theorem en_wholesale_missing_transition :
    submitAddEn .wholesalePrice enC4Data "4000" =
      (.advanced .warehouse, some (.wholesalePrice, enC4Data2)) ∧
    submitAddEn .wholesalePrice enC4Data2 "MSK-1" =
      (.rejected "Please enter a valid number for price", some (.wholesalePrice, enC4Data2)) ∧
    committedOf (submitAddEn .wholesalePrice enC4Data2 "MSK-1").1 = [] := by
  have hmsk : parsePyFloat "MSK-1" = none := rfl
  have h40 : ¬ ((4000 : ℚ) ≤ 0) := by decide
  refine ⟨?_, ?_, ?_⟩
  · simp [submitAddEn, parsePyFloat_4000, h40, enC4Data2, enC4Data]
  · simp [submitAddEn, hmsk]
  · simp [submitAddEn, hmsk, committedOf]

/-- The buyer slice of a full 12-column row keeps positions 0-6, 8, 9. -/
theorem redactRowBuyer_toCells (r : SearchRow) :
    redactRowBuyer r.toCells =
      some [r.sku, r.tyre_size, r.tyre_pattern, r.brand, r.country,
            r.qty_available, r.retail_price, r.warehouse_location, r.company_name] := rfl

/-- Mapping the buyer slice over full 12-column rows never fails. -/
theorem redactRowsBuyer_toCells (rows : List SearchRow) :
    redactRowsBuyer (rows.map SearchRow.toCells) =
      some (rows.map (fun r =>
        [r.sku, r.tyre_size, r.tyre_pattern, r.brand, r.country,
         r.qty_available, r.retail_price, r.warehouse_location, r.company_name])) := by
  induction rows with
  | nil => rfl
  | cons r rest ih => simp [redactRowsBuyer, ih, redactRowBuyer_toCells]

/-- C5: for a requester whose role is `Buyer`, every returned result row
excludes the wholesale price and the selling account's phone and email
while retaining SKU, size, pattern, brand, country, quantity, retail
price, warehouse location and company name; any other role (dealer,
admin) receives every row unchanged, with all 12 columns. -/
theorem buyer_search_redaction
    (rows : List SearchRow) (hne : rows ≠ []) (role : String) (hrole : role ≠ "Buyer") :
    create_search_excel (rows.map SearchRow.toCells) "Buyer" =
      some (buyerColumns, rows.map (fun r =>
        [r.sku, r.tyre_size, r.tyre_pattern, r.brand, r.country,
         r.qty_available, r.retail_price, r.warehouse_location, r.company_name])) ∧
    create_search_excel (rows.map SearchRow.toCells) role =
      some (fullColumns, rows.map SearchRow.toCells) ∧
    ("wholesale_price" ∉ buyerColumns ∧ "phone" ∉ buyerColumns ∧
     "email" ∉ buyerColumns) ∧
    ("sku" ∈ buyerColumns ∧ "tyre_size" ∈ buyerColumns ∧
     "tyre_pattern" ∈ buyerColumns ∧ "brand" ∈ buyerColumns ∧
     "country" ∈ buyerColumns ∧ "qty_available" ∈ buyerColumns ∧
     "retail_price" ∈ buyerColumns ∧ "warehouse_location" ∈ buyerColumns ∧
     "company_name" ∈ buyerColumns) ∧
    ("wholesale_price" ∈ fullColumns ∧ "phone" ∈ fullColumns ∧
     "email" ∈ fullColumns) := by
  have hmap : (rows.map SearchRow.toCells).isEmpty = false := by
    cases rows with
    | nil => exact absurd rfl hne
    | cons r rest => rfl
  refine ⟨?_, ?_, by decide, by decide, by decide⟩
  · simp [create_search_excel, hmap, redactRowsBuyer_toCells]
  · simp [create_search_excel, hmap, hrole]

/-- Witness for C5: one concrete full row, dealer role for the pass-through
branch. -/
theorem buyer_search_redaction_witness :
    create_search_excel [(⟨.s "T100", .s "195/65 R15", .s "X", .s "Michelin",
        .s "France", .n 10, .q (some 4500), .q (some 4000), .s "MSK-1",
        .s "ACME", .s "89123456789", .s "d@acme.ru"⟩ : SearchRow).toCells] "Buyer" =
      some (buyerColumns,
        [[.s "T100", .s "195/65 R15", .s "X", .s "Michelin", .s "France",
          .n 10, .q (some 4500), .s "MSK-1", .s "ACME"]]) ∧
    create_search_excel [(⟨.s "T100", .s "195/65 R15", .s "X", .s "Michelin",
        .s "France", .n 10, .q (some 4500), .q (some 4000), .s "MSK-1",
        .s "ACME", .s "89123456789", .s "d@acme.ru"⟩ : SearchRow).toCells] "Дилер" =
      some (fullColumns,
        [[.s "T100", .s "195/65 R15", .s "X", .s "Michelin", .s "France",
          .n 10, .q (some 4500), .q (some 4000), .s "MSK-1", .s "ACME",
          .s "89123456789", .s "d@acme.ru"]]) := by
  have h := buyer_search_redaction
    [⟨.s "T100", .s "195/65 R15", .s "X", .s "Michelin", .s "France", .n 10,
      .q (some 4500), .q (some 4000), .s "MSK-1", .s "ACME",
      .s "89123456789", .s "d@acme.ru"⟩]
    (by decide) "Дилер" (by decide)
  exact ⟨h.1, h.2.1⟩

/-- A row set that has already been through the buyer redaction consists of
9-column rows; slicing such a row again dereferences position 9 and fails. -/
theorem redactRowBuyer_short (r : List Cell) (h : r.length ≤ 9) :
    redactRowBuyer r = none := by
  have h9 : r[9]? = none := List.getElem?_eq_none (by omega)
  cases hx : r[6]? <;> cases hy : r[8]? <;>
    simp [redactRowBuyer, hx, hy, h9]

/-- C6 counterexample: applying `create_search_excel` for a buyer to an
already-redacted row set is not a no-op — the positional slice indexes
position 9 of a 9-column row, which raises `IndexError` (modelled `none`),
so the second application fails instead of returning the rows unchanged. -/
theorem buyer_redaction_not_idempotent :
    create_search_excel
      [[Cell.s "T100", .s "195/65 R15", .s "X", .s "Michelin", .s "France",
        .n 10, .q (some 4500), .q (some 4000), .s "MSK-1", .s "ACME",
        .s "89123456789", .s "d@acme.ru"]] "Buyer" =
      some (buyerColumns,
        [[Cell.s "T100", .s "195/65 R15", .s "X", .s "Michelin", .s "France",
          .n 10, .q (some 4500), .s "MSK-1", .s "ACME"]]) ∧
    create_search_excel
      [[Cell.s "T100", .s "195/65 R15", .s "X", .s "Michelin", .s "France",
        .n 10, .q (some 4500), .s "MSK-1", .s "ACME"]] "Buyer" = none ∧
    create_search_excel
      [[Cell.s "T100", .s "195/65 R15", .s "X", .s "Michelin", .s "France",
        .n 10, .q (some 4500), .s "MSK-1", .s "ACME"]] "Buyer" ≠
      some (buyerColumns,
        [[Cell.s "T100", .s "195/65 R15", .s "X", .s "Michelin", .s "France",
          .n 10, .q (some 4500), .s "MSK-1", .s "ACME"]]) := by
  exact ⟨rfl, rfl, by decide⟩

/-- C6 amended: a second application of the buyer redaction to any
non-empty set of already-redacted (9-column) rows does not reproduce the
rows — it fails with an index error (`none`); in particular no field,
wholesale price included, can reappear. -/
theorem buyer_redaction_second_application_fails
    (rows : List (List Cell)) (hne : rows ≠ []) (h9 : ∀ r ∈ rows, r.length = 9) :
    create_search_excel rows "Buyer" = none := by
  cases rows with
  | nil => exact absurd rfl hne
  | cons r rest =>
    have hr : redactRowBuyer r = none :=
      redactRowBuyer_short r (by rw [h9 r (by simp)])
    simp [create_search_excel, redactRowsBuyer, hr]

/-- Witness for the amended C6, at the concrete redacted row above. -/
theorem buyer_redaction_second_application_fails_witness :
    create_search_excel
      [[Cell.s "T100", .s "195/65 R15", .s "X", .s "Michelin", .s "France",
        .n 10, .q (some 4500), .s "MSK-1", .s "ACME"]] "Buyer" = none :=
  buyer_redaction_second_application_fails
    [[Cell.s "T100", .s "195/65 R15", .s "X", .s "Michelin", .s "France",
      .n 10, .q (some 4500), .s "MSK-1", .s "ACME"]]
    (by decide) (by decide)

/-- One step of the v1 add-item flow preserves `addDataOk`, and a record it
completes has positive quantity and retail price. -/
theorem submitAdd_preserves (step : AddStep) (d : AddData) (text : String)
    (hd : addDataOk d) :
    (∀ step2 d2, (submitAdd step d text).2 = some (step2, d2) → addDataOk d2) ∧
    (∀ r, (submitAdd step d text).1 = .completed r →
       0 < r.qty_available ∧ 0 < r.retail_price) := by
  obtain ⟨hq, hr⟩ := hd
  by_cases hc : isCancel text = true
  · constructor
    · intro s2 d2 h2
      unfold submitAdd at h2
      rw [if_pos hc] at h2
      exact absurd h2 (by simp)
    · intro r hcm
      unfold submitAdd at hcm
      rw [if_pos hc] at hcm
      exact absurd hcm (by simp)
  · cases step with
    | sku =>
      constructor
      · intro s2 d2 h2
        unfold submitAdd at h2
        rw [if_neg hc] at h2
        dsimp only at h2
        simp only [Option.some_inj, Prod.mk.injEq] at h2
        obtain ⟨-, rfl⟩ := h2
        exact ⟨hq, hr⟩
      · intro r hcm
        unfold submitAdd at hcm
        rw [if_neg hc] at hcm
        dsimp only at hcm
        exact absurd hcm (by simp)
    | size =>
      constructor
      · intro s2 d2 h2
        unfold submitAdd at h2
        rw [if_neg hc] at h2
        dsimp only at h2
        simp only [Option.some_inj, Prod.mk.injEq] at h2
        obtain ⟨-, rfl⟩ := h2
        exact ⟨hq, hr⟩
      · intro r hcm
        unfold submitAdd at hcm
        rw [if_neg hc] at hcm
        dsimp only at hcm
        exact absurd hcm (by simp)
    | pattern =>
      constructor
      · intro s2 d2 h2
        unfold submitAdd at h2
        rw [if_neg hc] at h2
        dsimp only at h2
        simp only [Option.some_inj, Prod.mk.injEq] at h2
        obtain ⟨-, rfl⟩ := h2
        exact ⟨hq, hr⟩
      · intro r hcm
        unfold submitAdd at hcm
        rw [if_neg hc] at hcm
        dsimp only at hcm
        exact absurd hcm (by simp)
    | brand =>
      constructor
      · intro s2 d2 h2
        unfold submitAdd at h2
        rw [if_neg hc] at h2
        dsimp only at h2
        simp only [Option.some_inj, Prod.mk.injEq] at h2
        obtain ⟨-, rfl⟩ := h2
        exact ⟨hq, hr⟩
      · intro r hcm
        unfold submitAdd at hcm
        rw [if_neg hc] at hcm
        dsimp only at hcm
        exact absurd hcm (by simp)
    | country =>
      constructor
      · intro s2 d2 h2
        unfold submitAdd at h2
        rw [if_neg hc] at h2
        dsimp only at h2
        simp only [Option.some_inj, Prod.mk.injEq] at h2
        obtain ⟨-, rfl⟩ := h2
        exact ⟨hq, hr⟩
      · intro r hcm
        unfold submitAdd at hcm
        rw [if_neg hc] at hcm
        dsimp only at hcm
        exact absurd hcm (by simp)
    | qty =>
      constructor
      · intro s2 d2 h2
        unfold submitAdd at h2
        rw [if_neg hc] at h2
        dsimp only at h2
        cases hp : parseQty text with
        | none =>
          rw [hp] at h2
          dsimp only at h2
          simp only [Option.some_inj, Prod.mk.injEq] at h2
          obtain ⟨-, rfl⟩ := h2
          exact ⟨hq, hr⟩
        | some n =>
          rw [hp] at h2
          dsimp only at h2
          by_cases hn : n ≤ 0
          · rw [if_pos hn] at h2
            simp only [Option.some_inj, Prod.mk.injEq] at h2
            obtain ⟨-, rfl⟩ := h2
            exact ⟨hq, hr⟩
          · rw [if_neg hn] at h2
            simp only [Option.some_inj, Prod.mk.injEq] at h2
            obtain ⟨-, rfl⟩ := h2
            refine ⟨?_, hr⟩
            intro m hm
            have hnm : n = m := Option.some_inj.mp hm
            omega
      · intro r hcm
        unfold submitAdd at hcm
        rw [if_neg hc] at hcm
        dsimp only at hcm
        cases hp : parseQty text with
        | none => rw [hp] at hcm; dsimp only at hcm; exact absurd hcm (by simp)
        | some n =>
          rw [hp] at hcm
          dsimp only at hcm
          by_cases hn : n ≤ 0
          · rw [if_pos hn] at hcm; exact absurd hcm (by simp)
          · rw [if_neg hn] at hcm; exact absurd hcm (by simp)
    | retailPrice =>
      constructor
      · intro s2 d2 h2
        unfold submitAdd at h2
        rw [if_neg hc] at h2
        dsimp only at h2
        cases hp : parsePrice text with
        | none =>
          rw [hp] at h2
          dsimp only at h2
          simp only [Option.some_inj, Prod.mk.injEq] at h2
          obtain ⟨-, rfl⟩ := h2
          exact ⟨hq, hr⟩
        | some p =>
          rw [hp] at h2
          dsimp only at h2
          by_cases hple : p ≤ 0
          · rw [if_pos hple] at h2
            simp only [Option.some_inj, Prod.mk.injEq] at h2
            obtain ⟨-, rfl⟩ := h2
            exact ⟨hq, hr⟩
          · rw [if_neg hple] at h2
            simp only [Option.some_inj, Prod.mk.injEq] at h2
            obtain ⟨-, rfl⟩ := h2
            refine ⟨hq, ?_⟩
            intro m hm
            have hpm : p = m := Option.some_inj.mp hm
            rw [← hpm]
            exact lt_of_not_le hple
      · intro r hcm
        unfold submitAdd at hcm
        rw [if_neg hc] at hcm
        dsimp only at hcm
        cases hp : parsePrice text with
        | none => rw [hp] at hcm; dsimp only at hcm; exact absurd hcm (by simp)
        | some p =>
          rw [hp] at hcm
          dsimp only at hcm
          by_cases hple : p ≤ 0
          · rw [if_pos hple] at hcm; exact absurd hcm (by simp)
          · rw [if_neg hple] at hcm; exact absurd hcm (by simp)
    | wholesalePrice =>
      constructor
      · intro s2 d2 h2
        unfold submitAdd at h2
        rw [if_neg hc] at h2
        dsimp only at h2
        cases hp : parsePrice text with
        | none =>
          rw [hp] at h2
          dsimp only at h2
          simp only [Option.some_inj, Prod.mk.injEq] at h2
          obtain ⟨-, rfl⟩ := h2
          exact ⟨hq, hr⟩
        | some p =>
          rw [hp] at h2
          dsimp only at h2
          by_cases hple : p ≤ 0
          · rw [if_pos hple] at h2
            simp only [Option.some_inj, Prod.mk.injEq] at h2
            obtain ⟨-, rfl⟩ := h2
            exact ⟨hq, hr⟩
          · rw [if_neg hple] at h2
            simp only [Option.some_inj, Prod.mk.injEq] at h2
            obtain ⟨-, rfl⟩ := h2
            exact ⟨hq, hr⟩
      · intro r hcm
        unfold submitAdd at hcm
        rw [if_neg hc] at hcm
        dsimp only at hcm
        cases hp : parsePrice text with
        | none => rw [hp] at hcm; dsimp only at hcm; exact absurd hcm (by simp)
        | some p =>
          rw [hp] at hcm
          dsimp only at hcm
          by_cases hple : p ≤ 0
          · rw [if_pos hple] at hcm; exact absurd hcm (by simp)
          · rw [if_neg hple] at hcm; exact absurd hcm (by simp)
    | warehouse =>
      constructor
      · intro s2 d2 h2
        unfold submitAdd at h2
        rw [if_neg hc] at h2
        dsimp only at h2
        exact absurd h2 (by simp)
      · intro r hcm
        unfold submitAdd at hcm
        rw [if_neg hc] at hcm
        dsimp only at hcm
        unfold commitAdd at hcm
        split at hcm
        · next s sz pt br co qn rp wp hs hsz hpt hbr hco hqn hrp hwp =>
          injection hcm with hrec
          rw [← hrec]
          refine ⟨?_, hr rp hrp⟩
          show (0 : ℤ) < (qn : ℤ)
          exact_mod_cast hq qn hqn
        · exact absurd hcm (by simp)

/-- Records only arise from the completion branch. -/
theorem mem_committedOf {res : StepResult} {r : StockRow}
    (h : r ∈ committedOf res) : res = .completed r := by
  cases res <;> simp [committedOf] at h ⊢
  exact h.symm

/-- Folding admitted messages from a state with a sound field map only ever
commits records with positive quantity and retail price. -/
theorem addFold_bounds (inputs : List String) :
    ∀ (st : Option (AddStep × AddData)) (recs : List StockRow),
    (∀ s d, st = some (s, d) → addDataOk d) →
    (∀ r ∈ recs, 0 < r.qty_available ∧ 0 < r.retail_price) →
    ∀ r ∈ (inputs.foldl addStepFold (st, recs)).2,
      0 < r.qty_available ∧ 0 < r.retail_price := by
  induction inputs with
  | nil => intro st recs _ hrecs; exact hrecs
  | cons t rest ih =>
    intro st recs hst hrecs
    simp only [List.foldl]
    cases st with
    | none => exact ih none recs hst hrecs
    | some sd =>
      obtain ⟨step, d⟩ := sd
      have hd := hst step d rfl
      have hsub := submitAdd_preserves step d t hd
      have hfold : addStepFold (some (step, d), recs) t =
          ((submitAdd step d t).2, recs ++ committedOf (submitAdd step d t).1) := rfl
      rw [hfold]
      apply ih
      · intro s2 d2 h2
        exact hsub.1 s2 d2 h2
      · intro r hrmem
        rcases List.mem_append.mp hrmem with h | h
        · exact hrecs r h
        · exact hsub.2 r (mem_committedOf h)

/-- Bulk import never stores a non-positive quantity. -/
theorem excelQty_pos (v : Option ℚ) : 1 ≤ excelQty v := by
  cases v with
  | none => simp [excelQty]
  | some x =>
    simp only [excelQty]
    split
    · omega
    · omega

/-- Bulk import never stores a negative retail price — but `0` is possible. -/
theorem excelRetail_nonneg (v : Option ℚ) : 0 ≤ excelRetail v := by
  cases v with
  | none => simp [excelRetail]
  | some x =>
    simp only [excelRetail]
    split
    · exact le_refl 0
    · next h => exact le_of_not_lt h

/-- C7 counterexample: a bulk-import row with an SKU but no retail-price
value is inserted with `retail_price = 0.0` (`process_excel_file` defaults
a missing or negative retail price to `0.0`), so not every created
inventory row has a positive retail price. -/
theorem excel_import_zero_retail :
    processExcelRow "tmp" { sku := some "A1" } =
      some ⟨"A1", "", "", "", "", 1, 0, none, ""⟩ ∧
    ¬ (0 < (⟨"A1", "", "", "", "", 1, 0, none, ""⟩ : StockRow).retail_price) :=
  ⟨rfl, by decide⟩

/-- C7 amended: rows committed by a completed add-item conversation have
quantity > 0 and retail price > 0; rows created by bulk Excel import always
have quantity ≥ 1 (missing or non-positive quantities are coerced to 1) but
only retail price ≥ 0 — a missing, unparseable or negative retail price is
stored as 0. -/
theorem inventory_creation_bounds :
    (∀ (inputs : List String), ∀ r ∈ (runAddFlow inputs).2,
       0 < r.qty_available ∧ 0 < r.retail_price) ∧
    (∀ (tempSku : String) (er : ExcelRow) (row : StockRow),
       processExcelRow tempSku er = some row →
       1 ≤ row.qty_available ∧ 0 ≤ row.retail_price) := by
  constructor
  · intro inputs r hmem
    refine addFold_bounds inputs (some (.sku, emptyAddData)) [] ?_ (by simp) r hmem
    intro s d h
    obtain ⟨-, rfl⟩ : AddStep.sku = s ∧ emptyAddData = d := by
      simpa using h
    exact ⟨by simp [emptyAddData], by simp [emptyAddData]⟩
  · intro tempSku er row h
    by_cases hblank : cellStr er.sku = "" ∧ cellStr er.size = "" ∧ cellStr er.brand = ""
    · simp only [processExcelRow] at h
      rw [if_pos hblank] at h
      exact absurd h (by simp)
    · simp only [processExcelRow] at h
      rw [if_neg hblank] at h
      obtain rfl := Option.some_inj.mp h
      exact ⟨excelQty_pos er.qty, excelRetail_nonneg er.retail⟩

/-- Witness for the amended C7: the conversation part at scenario 1's run,
the import part at the zero-retail row. -/
theorem inventory_creation_bounds_witness :
    (0 < (⟨"T100", "195/65 R15", "X", "Michelin", "France", (10 : ℤ), (4500 : ℚ),
          some (4000 : ℚ), "MSK-1"⟩ : StockRow).qty_available ∧
     0 < (⟨"T100", "195/65 R15", "X", "Michelin", "France", (10 : ℤ), (4500 : ℚ),
          some (4000 : ℚ), "MSK-1"⟩ : StockRow).retail_price) ∧
    (1 ≤ (⟨"A1", "", "", "", "", 1, 0, none, ""⟩ : StockRow).qty_available ∧
     0 ≤ (⟨"A1", "", "", "", "", 1, 0, none, ""⟩ : StockRow).retail_price) :=
  ⟨inventory_creation_bounds.1
     ["T100", "195/65 R15", "X", "Michelin", "France", "10", "4500", "4000", "MSK-1"]
     _ (by decide),
   inventory_creation_bounds.2 "tmp" { sku := some "A1" } _ rfl⟩

/-- A key the duplicate check does not find has no rows. -/
theorem countSub_of_not_exists (store : List SubRow) (u : ℤ) (k v : String)
    (h : subExists store u k v = false) : countSub store u k v = 0 := by
  simp only [countSub, List.length_eq_zero, List.filter_eq_nil_iff]
  intro s hs
  simp only [subExists, List.any_eq_false] at h
  exact h s hs

/-- Any store in which every key has at most one row keeps that property
across one subscribe attempt. -/
theorem subscribe_step_bounded (store : List SubRow) (u0 : ℤ) (k0 v0 : String)
    (h : ∀ u k v, countSub store u k v ≤ 1) :
    ∀ u k v, countSub (processSubscriptionValue store u0 k0 v0).2 u k v ≤ 1 := by
  intro u k v
  by_cases he : subExists store u0 k0 v0 = true
  · simpa [processSubscriptionValue, he] using h u k v
  · rw [Bool.not_eq_true] at he
    simp only [processSubscriptionValue, he, Bool.false_eq_true, if_false]
    unfold countSub
    rw [List.filter_append, List.length_append, List.filter_singleton]
    by_cases hpx : subKeyMatch u k v ⟨u0, k0, v0⟩ = true
    · obtain ⟨⟨rfl, rfl⟩, rfl⟩ : (u0 = u ∧ k0 = k) ∧ v0 = v := by
        simpa [subKeyMatch] using hpx
      rw [hpx]
      have h0 := countSub_of_not_exists store u0 k0 v0 he
      unfold countSub at h0
      simp only [cond_true, List.length_singleton]
      omega
    · rw [Bool.not_eq_true] at hpx
      rw [hpx]
      simp only [cond_false, List.length_nil, Nat.add_zero]
      simpa [countSub] using h u k v

/-- C8: a second subscribe attempt for the same (account, kind, value) is
detected and answered "already subscribed" with the store unchanged, and —
starting from an empty table — any sequence of subscribe attempts leaves at
most one subscription row per (account, kind, value). -/
theorem subscription_uniqueness :
    (∀ (store : List SubRow) (u : ℤ) (k v : String),
       processSubscriptionValue (processSubscriptionValue store u k v).2 u k v =
         (.alreadySubscribed, (processSubscriptionValue store u k v).2)) ∧
    (∀ (ops : List (ℤ × String × String)) (u : ℤ) (k v : String),
       countSub (runSubscribe ops) u k v ≤ 1) := by
  constructor
  · intro store u k v
    by_cases he : subExists store u k v = true
    · simp [processSubscriptionValue, he]
    · rw [Bool.not_eq_true] at he
      have he2 : subExists (store ++ [⟨u, k, v⟩]) u k v = true := by
        simp [subExists, subKeyMatch]
      simp [processSubscriptionValue, he, he2]
  · intro ops
    suffices haux : ∀ (store : List SubRow),
        (∀ u k v, countSub store u k v ≤ 1) →
        ∀ u k v,
          countSub (ops.foldl
            (fun st op => (processSubscriptionValue st op.1 op.2.1 op.2.2).2) store) u k v ≤ 1 by
      exact haux [] (by intro u k v; simp [countSub])
    induction ops with
    | nil => intro store h; exact h
    | cons op rest ih =>
      intro store h
      simp only [List.foldl]
      exact ih _ (subscribe_step_bounded store op.1 op.2.1 op.2.2 h)

/-- `deliveryCount` is additive over concatenation. -/
theorem deliveryCount_append (a b : List Delivery) (u : ℤ) (k v : String) :
    deliveryCount (a ++ b) u k v = deliveryCount a u k v + deliveryCount b u k v := by
  simp [deliveryCount, List.filter_append]

/-- The subscriber list of a pair is duplicate-free (`SELECT DISTINCT`). -/
theorem get_subscribers_nodup (subs : List SubRow) (k v : String) :
    (get_subscribers subs k v).Nodup :=
  List.nodup_dedup _

/-- Counting one account in deliveries fanned out to a duplicate-free
recipient list: one if subscribed, zero otherwise. -/
theorem count_fanout (k0 v0 text : String) (u : ℤ) :
    ∀ (l : List ℤ), l.Nodup →
    ((l.map (fun u' => (⟨u', k0, v0, text⟩ : Delivery))).filter
       (fun dl => dl.user = u && dl.kind = k0 && dl.value = v0)).length =
      if u ∈ l then 1 else 0 := by
  intro l hnd
  induction l with
  | nil => simp
  | cons a rest ih =>
    simp only [List.map_cons, List.filter_cons]
    by_cases ha : a = u
    · subst ha
      have hnotin : a ∉ rest := (List.nodup_cons.mp hnd).1
      simp [ih (List.nodup_cons.mp hnd).2, hnotin]
    · simp only [List.mem_cons]
      simp [ha, ih (List.nodup_cons.mp hnd).2, Ne.symm ha]

/-- Delivery count of one `send_notifications` call. -/
theorem deliveryCount_send (subs : List SubRow) (k0 v0 text : String) (u : ℤ)
    (k v : String) :
    deliveryCount (send_notifications subs k0 v0 text) u k v =
      if k0 = k ∧ v0 = v ∧ u ∈ get_subscribers subs k0 v0 then 1 else 0 := by
  unfold deliveryCount send_notifications
  by_cases hk : k0 = k ∧ v0 = v
  · obtain ⟨rfl, rfl⟩ := hk
    rw [count_fanout k0 v0 text u _ (get_subscribers_nodup subs k0 v0)]
    by_cases hu : u ∈ get_subscribers subs k0 v0 <;> simp [hu]
  · rw [if_neg (by tauto)]
    rw [List.length_eq_zero, List.filter_eq_nil_iff]
    intro dl hdl
    simp only [List.mem_map] at hdl
    obtain ⟨u', -, rfl⟩ := hdl
    simp only [Bool.and_eq_true, decide_eq_true_eq, not_and]
    intro h1 hvv
    exact hk ⟨h1.2, hvv⟩

/-- The `if subscribers:` guard before a send is redundant: sending to an
empty subscriber list delivers nothing. -/
theorem guard_send (subs : List SubRow) (k0 v0 text : String) :
    (if get_subscribers subs k0 v0 ≠ [] then send_notifications subs k0 v0 text
     else []) = send_notifications subs k0 v0 text := by
  by_cases h : get_subscribers subs k0 v0 = []
  · simp [h, send_notifications]
  · simp [h]

/-- Delivery count of one deduplicated value segment of the bulk fan-out. -/
theorem deliveryCount_segment (subs : List SubRow) (k0 : String)
    (f : String → String) (u : ℤ) (k v : String) :
    ∀ (l : List String), l.Nodup →
    deliveryCount (l.flatMap (fun b => send_notifications subs k0 b (f b))) u k v =
      if k0 = k ∧ v ∈ l ∧ u ∈ get_subscribers subs k v then 1 else 0 := by
  intro l hnd
  induction l with
  | nil => simp [deliveryCount]
  | cons b rest ih =>
    simp only [List.flatMap_cons]
    rw [deliveryCount_append, deliveryCount_send,
        ih (List.nodup_cons.mp hnd).2]
    by_cases hb : b = v
    · subst hb
      have hnotin : b ∉ rest := (List.nodup_cons.mp hnd).1
      by_cases hk : k0 = k
      · subst hk
        simp [hnotin]
      · simp [hk]
    · simp only [List.mem_cons]
      simp [hb, Ne.symm hb]

/-- A guard that holds on every element of a list can be dropped under its
`flatMap`. -/
theorem flatMap_guard_eq (l : List String) (g : String → List Delivery)
    (hne : ∀ b ∈ l, b ≠ "") :
    l.flatMap (fun b => if b ≠ "" then g b else []) = l.flatMap g := by
  induction l with
  | nil => rfl
  | cons b rest ih =>
    simp only [List.flatMap_cons]
    rw [if_pos (hne b (by simp)), ih (fun x hx => hne x (by simp [hx]))]

/-- `flatMap` respects pointwise-equal functions. -/
theorem flatMap_ext (l : List String) (f g : String → List Delivery)
    (h : ∀ a, f a = g a) : l.flatMap f = l.flatMap g := by
  rw [funext h]

/-- Every value produced by a distinct-values query is non-blank. -/
theorem mem_distinctTake_ne (l : List String) :
    ∀ b ∈ (((l.filter (fun b => b ≠ "")).dedup).take 10), b ≠ "" := by
  intro b hb
  have h1 := List.mem_of_mem_take hb
  have h2 := List.mem_dedup.mp h1
  have h3 := (List.mem_filter.mp h2).2
  simpa using h3

/-- Every distinct-values query result is duplicate-free. -/
theorem distinctTake_nodup (l : List String) :
    ((((l.filter (fun b => b ≠ "")).dedup).take 10)).Nodup :=
  (List.take_sublist _ _).nodup (List.nodup_dedup _)

/-- The three value segments of the bulk fan-out, with the redundant
emptiness guards removed. -/
theorem bulkNotifications_eq (stock : List (ℕ × StockRow)) (company : String)
    (subs : List SubRow) :
    bulkNotifications stock company subs =
      ((bulkBrandValues stock).flatMap (fun b =>
        send_notifications subs "brand" b ("Загружены новые товары бренда " ++ b))) ++
      ((bulkSizeValues stock).flatMap (fun sz =>
        send_notifications subs "tyre_size" sz ("Загружены новые товары размера " ++ sz))) ++
      send_notifications subs "dealer" company
        ("Дилер " ++ company ++ " загрузил новые товары") := by
  unfold bulkNotifications
  rw [guard_send]
  congr 2
  · rw [flatMap_ext _ _
      (fun b => if b ≠ "" then send_notifications subs "brand" b
        ("Загружены новые товары бренда " ++ b) else [])
      (fun b => by rw [guard_send])]
    exact flatMap_guard_eq _ _ (mem_distinctTake_ne _)
  · rw [flatMap_ext _ _
      (fun sz => if sz ≠ "" then send_notifications subs "tyre_size" sz
        ("Загружены новые товары размера " ++ sz) else [])
      (fun sz => by rw [guard_send])]
    exact flatMap_guard_eq _ _ (mem_distinctTake_ne _)

/-- `bulkBrandValues` is duplicate-free. -/
theorem bulkBrandValues_nodup (stock : List (ℕ × StockRow)) :
    (bulkBrandValues stock).Nodup :=
  distinctTake_nodup _

/-- `bulkSizeValues` is duplicate-free. -/
theorem bulkSizeValues_nodup (stock : List (ℕ × StockRow)) :
    (bulkSizeValues stock).Nodup :=
  distinctTake_nodup _

/-- C9 amended: each subscriber receives exactly one notification per
(kind, value) pair the code derives for the write and none otherwise.  For
a single add the pairs are the new item's brand, its size and the dealer's
company; for a bulk import they are the distinct non-empty brands and sizes
of the dealer's ENTIRE stock after the import (at most 10 each, so not only
the pairs touched by the write) plus the dealer's company name.  In
particular two accounts subscribed to a brand each receive exactly one
delivery however many items of that brand the batch contains. -/
theorem notification_once_per_pair :
    (∀ (stock : List (ℕ × StockRow)) (company : String) (subs : List SubRow)
       (u : ℤ) (k v : String),
       deliveryCount (bulkNotifications stock company subs) u k v =
         if (k, v) ∈ bulkPairs stock company ∧ u ∈ get_subscribers subs k v
         then 1 else 0) ∧
    (∀ (subs : List SubRow) (company brand size pat : String) (u : ℤ) (k v : String),
       deliveryCount (singleAddNotifications subs company brand size pat) u k v =
         if (k, v) ∈ singlePairs company brand size ∧ u ∈ get_subscribers subs k v
         then 1 else 0) := by
  constructor
  · intro stock company subs u k v
    rw [bulkNotifications_eq, deliveryCount_append, deliveryCount_append,
        deliveryCount_segment subs "brand"
          (fun b => "Загружены новые товары бренда " ++ b) u k v
          (bulkBrandValues stock) (bulkBrandValues_nodup stock),
        deliveryCount_segment subs "tyre_size"
          (fun sz => "Загружены новые товары размера " ++ sz) u k v
          (bulkSizeValues stock) (bulkSizeValues_nodup stock),
        deliveryCount_send]
    simp only [bulkPairs, List.mem_append, List.mem_map, List.mem_singleton,
      Prod.mk.injEq]
    rcases eq_or_ne k "brand" with rfl | hkb
    · simp
    · rcases eq_or_ne k "tyre_size" with rfl | hks
      · simp
      · rcases eq_or_ne k "dealer" with rfl | hkd
        · rcases eq_or_ne v company with rfl | hv
          · simp
          · simp [hv, Ne.symm hv]
        · simp [hkb, hks, hkd, Ne.symm hkb, Ne.symm hks, Ne.symm hkd]
  · intro subs company brand size pat u k v
    unfold singleAddNotifications
    rw [guard_send, guard_send, guard_send, deliveryCount_append,
        deliveryCount_append, deliveryCount_send, deliveryCount_send,
        deliveryCount_send]
    simp only [singlePairs, List.mem_cons, List.mem_singleton, Prod.mk.injEq,
      List.not_mem_nil, or_false]
    rcases eq_or_ne k "brand" with rfl | hkb
    · rcases eq_or_ne v brand with rfl | hv
      · simp
      · simp [hv, Ne.symm hv]
    · rcases eq_or_ne k "tyre_size" with rfl | hks
      · rcases eq_or_ne v size with rfl | hv
        · simp
        · simp [hv, Ne.symm hv]
      · rcases eq_or_ne k "dealer" with rfl | hkd
        · rcases eq_or_ne v company with rfl | hv
          · simp
          · simp [hv, Ne.symm hv]
        · simp [hkb, hks, hkd, Ne.symm hkb, Ne.symm hks, Ne.symm hkd]

/-- C9 counterexample: after a bulk import whose batch contains only brand
`"Pirelli"`, the fan-out nevertheless delivers a notification for the pair
(`brand`, `"Nokian"`) — a pair not touched by the write — because it reads
the distinct brands of the dealer's whole stock, which still holds an old
Nokian row.  The subscriber to `"Nokian"` receives one delivery although no
newly written row has that brand. -/
theorem bulk_notifications_stale_pairs :
    bulkNotifications [(2, c9NewRow), (1, c9OldRow)] "ACME"
        [⟨42, "brand", "Nokian"⟩] =
      [⟨42, "brand", "Nokian", "Загружены новые товары бренда Nokian"⟩] ∧
    List.map (fun p => (p.2.brand)) [((2 : ℕ), c9NewRow)] = ["Pirelli"] ∧
    deliveryCount (bulkNotifications [(2, c9NewRow), (1, c9OldRow)] "ACME"
        [⟨42, "brand", "Nokian"⟩]) 42 "brand" "Nokian" = 1 := by
  refine ⟨by decide, rfl, by decide⟩

/-- One call keeps the retained list no longer than `max_requests`. -/
theorem is_limited_len (l : List ℚ) (now : ℚ) (h : l.length ≤ 10) :
    (is_limited l now).2.length ≤ 10 := by
  unfold is_limited
  by_cases hlen : 10 ≤ (pruneRequests l now).length
  · simpa [hlen] using le_trans (List.length_filter_le _ l) h
  · have : (pruneRequests l now).length ≤ l.length := List.length_filter_le _ l
    simp only [hlen, if_false, List.length_append, List.length_singleton]
    omega

/-- C10: the rate limiter records a timestamp only when the request is
admitted — a call that reports the user limited stores just the pruned
(sub)list of previous timestamps; the retained list never exceeds
`max_requests = 10` entries; after any call every retained timestamp lies
inside the 60-second window of that call; and once 60 seconds have passed
since the newest retained (i.e. last admitted) timestamp, the next request
is admitted — denied requests never extend the throttle. -/
theorem rate_limiter_props :
    (∀ (l : List ℚ) (now : ℚ), (is_limited l now).1 = true →
       (is_limited l now).2 = pruneRequests l now ∧
       (is_limited l now).2.Sublist l) ∧
    (∀ (times : List ℚ), (runLimiter times).length ≤ 10) ∧
    (∀ (l : List ℚ) (now : ℚ), ∀ t ∈ (is_limited l now).2, now - t < 60) ∧
    (∀ (l : List ℚ) (now m : ℚ), (∀ t ∈ l, t ≤ m) → m + 60 ≤ now →
       (is_limited l now).1 = false) := by
  refine ⟨?_, ?_, ?_, ?_⟩
  · intro l now h
    unfold is_limited at *
    by_cases hlen : 10 ≤ (pruneRequests l now).length
    · simp only [hlen, if_true]
      exact ⟨trivial, List.filter_sublist l⟩
    · simp [hlen] at h
  · intro times
    unfold runLimiter
    suffices haux : ∀ (l : List ℚ), l.length ≤ 10 →
        (times.foldl (fun l t => (is_limited l t).2) l).length ≤ 10 by
      exact haux [] (by simp)
    induction times with
    | nil => intro l h; simpa using h
    | cons t rest ih =>
      intro l h
      simp only [List.foldl]
      exact ih _ (is_limited_len l t h)
  · intro l now t ht
    unfold is_limited at ht
    by_cases hlen : 10 ≤ (pruneRequests l now).length
    · simp only [hlen, if_true] at ht
      have := (List.mem_filter.mp ht).2
      simpa using this
    · simp only [hlen, if_false] at ht
      rcases List.mem_append.mp ht with hm | hm
      · have := (List.mem_filter.mp hm).2
        simpa using this
      · obtain rfl : t = now := by simpa using hm
        norm_num
  · intro l now m hall hnow
    have hp : pruneRequests l now = [] := by
      rw [pruneRequests, List.filter_eq_nil_iff]
      intro t ht
      have h1 := hall t ht
      simp only [decide_eq_true_eq, not_lt]
      linarith
    simp [is_limited, hp]

/-- Witness for C10 at concrete histories: ten in-window timestamps are all
retained and the 11th request is denied without recording anything; a long
burst retains only 10; a stale history admits again. -/
theorem rate_limiter_props_witness :
    ((is_limited [0, 1, 2, 3, 4, 5, 6, 7, 8, 9] (30 : ℚ)).2 =
       pruneRequests [0, 1, 2, 3, 4, 5, 6, 7, 8, 9] 30 ∧
     (is_limited [0, 1, 2, 3, 4, 5, 6, 7, 8, 9] (30 : ℚ)).2.Sublist
       [0, 1, 2, 3, 4, 5, 6, 7, 8, 9]) ∧
    (runLimiter [0, 1, 2, 3, 4, 5, 6, 7, 8, 9, 10, 11, 12]).length ≤ 10 ∧
    (30 : ℚ) - 0 < 60 ∧
    (is_limited [0, 1, 2, 3, 4, 5, 6, 7, 8, 9] (70 : ℚ)).1 = false := by
  have h := rate_limiter_props
  refine ⟨h.1 [0, 1, 2, 3, 4, 5, 6, 7, 8, 9] 30 ?_, h.2.1 _, ?_, ?_⟩
  · norm_num [is_limited, pruneRequests, List.filter]
  · refine h.2.2.1 [0, 1, 2, 3, 4, 5, 6, 7, 8, 9] 30 0 ?_
    norm_num [is_limited, pruneRequests, List.filter]
  · refine h.2.2.2 [0, 1, 2, 3, 4, 5, 6, 7, 8, 9] 70 9 ?_ (by norm_num)
    intro t ht
    fin_cases ht <;> norm_num

end TyreTerra

